import Mathlib

/-!
Shallow embedding of `trade_analysis.py` (PortfolioTrade): a pipeline that
decodes per-account trade-history fields, flattens them into trade rows,
computes per-account performance metrics, and ranks accounts by a weighted
score.  Floating-point numbers are modelled as rationals; the float `NaN`
is modelled explicitly (`Option`/dedicated constructors) where it can arise.
-/

namespace PortfolioTrade

/-- A JSON value, as produced by `json.loads`.  Python's `json` module also
accepts the non-standard literals `Infinity`/`-Infinity`, so those appear as
dedicated constructors (they become float `inf` cells after flattening). -/
inductive Json where
  | null
  | bool (b : Bool)
  | num (q : ℚ)
  | str (s : String)
  | inf
  | ninf
  | arr (elems : List Json)
  | obj (fields : List (String × Json))

mutual

/-- Structural equality test for JSON values (used by duplicate removal). -/
def Json.beq : Json → Json → Bool
  | .null, .null => true
  | .bool a, .bool b => a == b
  | .num a, .num b => a == b
  | .str a, .str b => a == b
  | .inf, .inf => true
  | .ninf, .ninf => true
  | .arr a, .arr b => Json.beqList a b
  | .obj a, .obj b => Json.beqFields a b
  | _, _ => false

/-- Structural equality test for JSON arrays. -/
def Json.beqList : List Json → List Json → Bool
  | [], [] => true
  | a :: as_, b :: bs => Json.beq a b && Json.beqList as_ bs
  | _, _ => false

/-- Structural equality test for JSON object fields. -/
def Json.beqFields : List (String × Json) → List (String × Json) → Bool
  | [], [] => true
  | (k1, v1) :: as_, (k2, v2) :: bs => k1 == k2 && Json.beq v1 v2 && Json.beqFields as_ bs
  | _, _ => false

end

instance : BEq Json := ⟨Json.beq⟩

/-- A Python value as produced by `ast.literal_eval`: literals only, so no
functions or cyclic structures, but tuples, sets and bytes are possible.
Dict keys are modelled as strings (the shape occurring in trade data). -/
inductive PyVal where
  | none
  | bool (b : Bool)
  | int (z : ℤ)
  | float (q : ℚ)
  | str (s : String)
  | list (elems : List PyVal)
  | tuple (elems : List PyVal)
  | dict (fields : List (String × PyVal))
  | set (elems : List PyVal)
  | bytes (s : String)

/-- The Python exception kinds relevant to this program. -/
inductive PyExc where
  | typeError
  | valueError
deriving DecidableEq

mutual

/-- Models `json.dumps` followed by `json.loads` (line 19 of the source): succeeds on
JSON-safe values (None/bool/int/float/str/list/tuple/dict), converting tuples
to arrays; raises `TypeError` on sets and bytes, which are not JSON
serializable.  The re-`loads` of the dumped string always succeeds and yields
the converted structure, so it is fused into this function. -/
def jsonDumps : PyVal → Except PyExc Json
  | .none => .ok .null
  | .bool b => .ok (.bool b)
  | .int z => .ok (.num (z : ℚ))
  | .float q => .ok (.num q)
  | .str s => .ok (.str s)
  | .list l => (jsonDumpsList l).map .arr
  | .tuple l => (jsonDumpsList l).map .arr
  | .dict f => (jsonDumpsFields f).map .obj
  | .set _ => .error .typeError
  | .bytes _ => .error .typeError

/-- Models `json.dumps` on a list of values. -/
def jsonDumpsList : List PyVal → Except PyExc (List Json)
  | [] => .ok []
  | v :: t => do
    let j ← jsonDumps v
    let r ← jsonDumpsList t
    pure (j :: r)

/-- Models `json.dumps` on the fields of a dict. -/
def jsonDumpsFields : List (String × PyVal) → Except PyExc (List (String × Json))
  | [] => .ok []
  | (k, v) :: t => do
    let j ← jsonDumps v
    let r ← jsonDumpsFields t
    pure ((k, j) :: r)

end

/-- A raw `Trade_History` field value, classified by the outcomes of the two
external parsers the source calls (`json.loads` for strict JSON,
`ast.literal_eval` as fallback): the missing/NA sentinel, a string that
strict-parses to `j`, a string on which strict parsing fails but the literal
fallback yields `v`, a string on which both parsers fail, or a value that is
already structured (not a string at all). -/
inductive Raw where
  | na
  | strJson (j : Json)
  | strLit (v : PyVal)
  | strBad
  | structured (v : PyVal)

/-- Embeds `validate_json_string` (source lines 7-21).  The `except` clause catches
only `ValueError`, `SyntaxError` and `json.JSONDecodeError`, so the
`TypeError` raised by `json.dumps` on non-JSON-safe literal values (sets,
bytes) propagates.  For an already-structured list value, `pd.isna` returns
an array and the `if` on it raises `ValueError`; for other non-string
structured values (`pd.isna` false), `json.loads` raises `TypeError`.
(The `.str` branch of `structured` is unreachable: string inputs are
classified by parser outcome.) -/
def validate_json_string : Raw → Except PyExc (Option Json)
  | .na => .ok none
  | .strJson j => .ok (some j)
  | .strBad => .ok none
  | .strLit v =>
    match jsonDumps v with
    | .ok j => .ok (some j)
    | .error e => .error e
  | .structured v =>
    match v with
    | .none => .ok none
    | .list _ => .error .valueError
    | .tuple _ => .error .valueError
    | _ => .error .typeError

/-- Keep the first occurrence of each element, dropping later duplicates
(the semantics of `pandas.unique` / `DataFrame.drop_duplicates`). -/
def dedupFirstAux [BEq α] (seen : List α) : List α → List α
  | [] => []
  | a :: l =>
    if seen.any (fun b => a == b) then dedupFirstAux seen l
    else a :: dedupFirstAux (a :: seen) l

/-- First-occurrence duplicate removal. -/
def dedupFirst [BEq α] (l : List α) : List α := dedupFirstAux [] l

/-- One input CSV row: the required columns `Port_IDs` and `Trade_History`
(source lines 32-35; file reading itself is the external collaborator).  -/
structure RawRow where
  portId : String
  tradeHistory : Raw

/-- Embeds `df['Trade_History'].apply(validate_json_string)` (source line 39): an
exception raised for any row propagates out of `apply`. -/
def decodeRows (rows : List RawRow) : Except PyExc (List (String × Option Json)) :=
  rows.mapM (fun r => (validate_json_string r.tradeHistory).map (fun o => (r.portId, o)))

/-- Removal of rows whose decoded trade history is `None` (source lines 42-45). -/
def goodRows (dec : List (String × Option Json)) : List (String × Json) :=
  dec.filterMap (fun p => p.2.map (fun j => (p.1, j)))

/-- Embeds `df.explode('Trade_History')` on one row (source line 52): a list value
becomes one element per entry, any non-list value stays as a single element.
(Pandas turns an empty list into a single NA element; theorems about the
flattener restrict to histories decoding to nonempty arrays or single
objects, so that corner is modelled as zero entries.) -/
def explodeOne (a : String) : Json → List (String × Json)
  | .arr l => l.map (fun e => (a, e))
  | j => [(a, j)]

/-- Runs `explode` over the whole frame. -/
def explodeAll (good : List (String × Json)) : List (String × Json) :=
  (good.map (fun p => explodeOne p.1 p.2)).flatten

/-- A JSON object viewed as a flat field list, as `pd.json_normalize`
consumes it. -/
def asObj : Json → Option (List (String × Json))
  | .obj o => some o
  | _ => none

/-- Models that `pd.json_normalize` requires every exploded element to be a mapping;
anything else makes the normalization block raise, which line 62 converts to
`ValueError`.  On success it pairs each account id with its entry fields. -/
def entriesOf (l : List (String × Json)) : Option (List (String × List (String × Json))) :=
  l.mapM (fun p => (asObj p.2).map (fun e => (p.1, e)))

/-- The union of all field names observed across entries, in first-seen
order (the columns `pd.json_normalize` produces). -/
def unionKeys (entries : List (List (String × Json))) : List String :=
  dedupFirst ((entries.map (fun e => e.map Prod.fst)).flatten)

/-- The value of column `k` in one entry; a missing field is NA in that row
(modelled as `Json.null`, which the cleaning step treats the same way). -/
def fieldOf (e : List (String × Json)) (k : String) : Json :=
  match e.lookup k with
  | some v => v
  | none => .null

/-- One flattened trade row: the account id plus the cell values, aligned
with the global column list. -/
structure FlatRow where
  portId : String
  cells : List Json
deriving BEq

/-- The merged flat table (source lines 53-59): one row per entry, cells
drawn from the union of observed columns. -/
def normalizeEntries (entries : List (String × List (String × Json))) : List FlatRow :=
  let cols := unionKeys (entries.map Prod.snd)
  entries.map (fun p => ⟨p.1, cols.map (fieldOf p.2)⟩)

/-- Is this cell NA (either JSON null or a missing field)? -/
def isNA : Json → Bool
  | .null => true
  | _ => false

/-- Is this cell an infinite float? -/
def isInf : Json → Bool
  | .inf => true
  | .ninf => true
  | _ => false

/-- Embeds `replace([np.inf, -np.inf], np.nan)` on one row (source line 68). -/
def replaceInfRow (r : FlatRow) : FlatRow :=
  { r with cells := r.cells.map (fun c => if isInf c then .null else c) }

/-- Does the row contain an NA cell (the account id, a string, is never NA)? -/
def hasNA (r : FlatRow) : Bool := r.cells.any isNA

/-- The cleaning steps of source lines 65-69, in the source's order:
`drop_duplicates()`, then infinity replacement, then `dropna()`. -/
def cleanRows (l : List FlatRow) : List FlatRow :=
  ((dedupFirst l).map replaceInfRow).filter (fun r => !hasNA r)

/-- Embeds `load_and_clean_data` (source lines 23-71), from the point where the
rows have been read: decode the trade histories (line 39), drop
undecodable rows and fail if none remain (lines 42-48), explode and
normalize (lines 51-62), then clean (lines 64-69) and return — with no
emptiness check after cleaning. -/
def load_and_clean_data (rows : List RawRow) : Except PyExc (List FlatRow) :=
  match decodeRows rows with
  | .error e => .error e
  | .ok dec =>
    let good := goodRows dec
    if good.isEmpty then .error .valueError
    else
      match entriesOf (explodeAll good) with
      | none => .error .valueError
      | some entries => .ok (cleanRows (normalizeEntries entries))

/-- One typed trade row as the metrics stage consumes it: the account id and
the three required numeric columns (source line 80).  The schema check of
lines 81-83 is subsumed by the typing; extra columns are irrelevant to the
metrics computation. -/
structure TradeRow where
  account : String
  price : ℚ
  quantity : ℚ
  realizedProfit : ℚ
deriving DecidableEq

/-- Models `Series.mean()`: sum divided by length (the `[]` case, guarded by the
source's `if not returns.empty`, never feeds a division by zero). -/
def mean (l : List ℚ) : ℚ := l.sum / (l.length : ℚ)

/-- Sum of squared deviations from the mean. -/
def sumSqDev (l : List ℚ) : ℚ := (l.map (fun x => (x - mean l) ^ 2)).sum

/-- Models `Series.std() ^ 2` for two or more values: the sample variance, pandas'
default `ddof=1`, i.e. divisor `n - 1`.  (For a single value pandas' std is
NaN; `sharpeOf` handles that case before ever consulting this function.) -/
def sampleVar (l : List ℚ) : ℚ := sumSqDev l / ((l.length : ℚ) - 1)

/-- The population variance (divisor `n`): the alternative standard-deviation
convention the spec leaves open, defined here only for comparison. -/
def popVar (l : List ℚ) : ℚ := sumSqDev l / (l.length : ℚ)

/-- The result of the Sharpe-ratio computation.  `ratio m v` denotes the real
number `m / sqrt v` with `v ≠ 0`, kept symbolic because the square root of a
rational is irrational in general; `nan` is the float NaN. -/
inductive SharpeVal where
  | nan
  | val (q : ℚ)
  | ratio (mean svar : ℚ)
deriving DecidableEq

/-- The Sharpe computation of source lines 108-111 on the account's
`realizedProfit` column: `mean / std if std != 0 else 0`.  With no rows the
source's emptiness guards give mean 0 and std 1, hence 0.  With one row,
`Series.std()` (ddof=1) is NaN, `NaN != 0` is true in Python, and
`mean / NaN` is NaN.  With two or more rows the std is `sqrt (sampleVar l)`,
which is zero exactly when `sampleVar l` is zero. -/
def sharpeOf : List ℚ → SharpeVal
  | [] => .val 0
  | [_] => .nan
  | a :: b :: t =>
    if sampleVar (a :: b :: t) = 0 then .val 0
    else .ratio (mean (a :: b :: t)) (sampleVar (a :: b :: t))

/-- Models `Series.cumsum()` with running total `acc`. -/
def cumsumFrom (acc : ℚ) : List ℚ → List ℚ
  | [] => []
  | x :: t => (acc + x) :: cumsumFrom (acc + x) t

/-- Models `Series.cumsum()`. -/
def cumsum (l : List ℚ) : List ℚ := cumsumFrom 0 l

/-- Models `Series.cummax()` with running maximum `m`. -/
def cummaxAux (m : ℚ) : List ℚ → List ℚ
  | [] => []
  | x :: t => max m x :: cummaxAux (max m x) t

/-- Models `Series.cummax()`. -/
def cummax : List ℚ → List ℚ
  | [] => []
  | x :: t => x :: cummaxAux x t

/-- Models `Series.max()` of a drawdown series, with the source's `else 0` for the
empty case (line 117). -/
def listMaxD : List ℚ → ℚ
  | [] => 0
  | x :: t => t.foldl max x

/-- Maximum drawdown (source lines 114-117): cumulative sum, its running
maximum, their difference, and the maximum of that series. -/
def mddOf (l : List ℚ) : ℚ :=
  listMaxD (List.zipWith (fun a b => a - b) (cummax (cumsum l)) (cumsum l))

/-- ROI (source lines 93-100): first-row and last-row notional balances,
`(final - initial) / initial` guarded by `initial != 0`.  The `[]` case
corresponds to the source's `if not account_data.empty` guard leaving both
balances 0, so the `initial != 0` test fails and the result is 0. -/
def roiOf : List TradeRow → ℚ
  | [] => 0
  | r :: t =>
    let initial := r.price * r.quantity
    let lastRow := (r :: t).getLast (List.cons_ne_nil r t)
    let final := lastRow.price * lastRow.quantity
    if initial ≠ 0 then (final - initial) / initial else 0

/-- One record of the metrics table (source lines 119-128). -/
structure AccountMetrics where
  portId : String
  pnl : ℚ
  roi : ℚ
  winRate : ℚ
  winPositions : ℕ
  totalPositions : ℕ
  sharpe : SharpeVal
  mdd : ℚ
deriving DecidableEq

/-- The body of the per-account loop (source lines 87-128): the metrics of
one account from its slice of trade rows. -/
def accountMetricsBody (a : String) (rs : List TradeRow) : AccountMetrics :=
  let profits := rs.map (fun r => r.realizedProfit)
  { portId := a
    pnl := profits.sum
    roi := roiOf rs
    winRate :=
      if rs.length > 0 then
        ((rs.countP (fun r => decide (0 < r.realizedProfit)) : ℚ) / (rs.length : ℚ))
      else 0
    winPositions := rs.countP (fun r => decide (0 < r.realizedProfit))
    totalPositions := rs.length
    sharpe := sharpeOf profits
    mdd := mddOf profits }

/-- Embeds `trade_df['Port_IDs'].unique()` (source line 77): the distinct account
ids in order of first appearance. -/
def uniqueAccounts (rows : List TradeRow) : List String :=
  dedupFirst (rows.map (fun r => r.account))

/-- Embeds `trade_df[trade_df['Port_IDs'] == account]` (source line 87): the
account's slice of rows, in their given relative order. -/
def sliceOf (rows : List TradeRow) (a : String) : List TradeRow :=
  rows.filter (fun r => r.account = a)

/-- Embeds `calculate_metrics` (source lines 73-137) with the per-account loop body
abstracted: the `try`/`except`/`continue` of lines 86-132 makes any failing
account's record disappear from `metrics` while the loop goes on, and
line 134-135 raises exactly when `metrics` stayed empty.  The actual body is
total (`calculate_metrics` below instantiates `f` with it); quantifying over
`f` expresses the loop's behavior for any error the body might raise. -/
def calculate_metrics_with (f : String → List TradeRow → Except Unit AccountMetrics)
    (rows : List TradeRow) : Except PyExc (List AccountMetrics) :=
  if rows.isEmpty then .error .valueError
  else
    let ms := (uniqueAccounts rows).filterMap (fun a => (f a (sliceOf rows a)).toOption)
    if ms.isEmpty then .error .valueError else .ok ms

/-- Embeds `calculate_metrics` with the source's actual loop body. -/
def calculate_metrics (rows : List TradeRow) : Except PyExc (List AccountMetrics) :=
  calculate_metrics_with (fun a rs => .ok (accountMetricsBody a rs)) rows

/-- One row of the metrics frame as `rank_accounts` consumes it: the four
weighted metric columns as real numbers (per the data model all metric
fields are real; the remaining columns pass through the ranking unchanged
and are omitted from the model). -/
structure MetricsRow where
  portId : String
  roi : ℚ
  pnl : ℚ
  sharpe : ℚ
  winRate : ℚ
deriving DecidableEq

/-- Models `Series.min()` of a metric column (0 for the empty frame, where the
source's arithmetic would produce all-NaN columns anyway). -/
def colMin : List ℚ → ℚ
  | [] => 0
  | [x] => x
  | x :: y :: t => min x (colMin (y :: t))

/-- Models `Series.max()` of a metric column. -/
def colMax : List ℚ → ℚ
  | [] => 0
  | [x] => x
  | x :: y :: t => max x (colMax (y :: t))

/-- Min-max normalization of one value (source line 152):
`(v - lo) / (hi - lo)`.  When `hi = lo` the column value `v` equals both, so
the float computes `0 / 0 = NaN`, modelled as `none`. -/
def normCol (lo hi v : ℚ) : Option ℚ :=
  if hi = lo then none else some ((v - lo) / (hi - lo))

/-- A metrics row extended with the columns `rank_accounts` adds: the four
normalized metrics, the weighted `Score`, and the `Rank` (each `none` where
the float would be NaN). -/
structure RankedRow where
  base : MetricsRow
  roiN : Option ℚ
  pnlN : Option ℚ
  sharpeN : Option ℚ
  winRateN : Option ℚ
  score : Option ℚ
  rank : Option ℚ
deriving DecidableEq

/-- Source lines 150-159: per-column min-max normalization followed by the
weighted score `0.4·ROI_n + 0.3·PnL_n + 0.2·Sharpe_n + 0.1·WinRate_n`; a NaN
in any normalized column makes the score NaN. -/
def normalizeAndScore (ms : List MetricsRow) : List RankedRow :=
  let roiLo := colMin (ms.map (fun m => m.roi))
  let roiHi := colMax (ms.map (fun m => m.roi))
  let pnlLo := colMin (ms.map (fun m => m.pnl))
  let pnlHi := colMax (ms.map (fun m => m.pnl))
  let shLo := colMin (ms.map (fun m => m.sharpe))
  let shHi := colMax (ms.map (fun m => m.sharpe))
  let wrLo := colMin (ms.map (fun m => m.winRate))
  let wrHi := colMax (ms.map (fun m => m.winRate))
  ms.map (fun m =>
    let rN := normCol roiLo roiHi m.roi
    let pN := normCol pnlLo pnlHi m.pnl
    let sN := normCol shLo shHi m.sharpe
    let wN := normCol wrLo wrHi m.winRate
    { base := m
      roiN := rN
      pnlN := pN
      sharpeN := sN
      winRateN := wN
      score :=
        match rN, pN, sN, wN with
        | some a, some b, some c, some d =>
          some ((0.4 : ℚ) * a + (0.3 : ℚ) * b + (0.2 : ℚ) * c + (0.1 : ℚ) * d)
        | _, _, _, _ => none
      rank := none })

/-- The number of (non-NaN) scores strictly greater than `s`. -/
def countGt (scores : List (Option ℚ)) (s : ℚ) : ℕ :=
  scores.countP (fun o =>
    match o with
    | some t => decide (s < t)
    | none => false)

/-- The number of scores equal to `s`. -/
def countEq (scores : List (Option ℚ)) (s : ℚ) : ℕ :=
  scores.countP (fun o => o == some s)

/-- Models `Series.rank(ascending=False)` for the value `s`: pandas' default
`method='average'` assigns the tie group of `s` the average of the ordinal
positions that group occupies in a descending sort, namely positions
`countGt + 1, ..., countGt + countEq`; NaN scores are kept out of the
positions (`na_option='keep'`). -/
def rankAvg (scores : List (Option ℚ)) (s : ℚ) : ℚ :=
  let g := countGt scores s
  let e := countEq scores s
  (((List.range e).map (fun i => ((g + 1 + i : ℕ) : ℚ))).sum) / (e : ℚ)

/-- Source line 162: the `Rank` column; a NaN score keeps a NaN rank. -/
def addRank (rows : List RankedRow) : List RankedRow :=
  let scores := rows.map (fun r => r.score)
  rows.map (fun r => { r with rank := r.score.map (fun s => rankAvg scores s) })

/-- Insert one row into an ascending-by-rank list, after any rows of equal
rank (so that an earlier row keeps priority over a later equal-ranked one,
pandas `nsmallest`'s `keep='first'`). -/
def insertByRank (r : RankedRow) : List RankedRow → List RankedRow
  | [] => [r]
  | x :: xs =>
    if x.rank.getD 0 ≤ r.rank.getD 0 then x :: insertByRank r xs
    else r :: x :: xs

/-- Stable ascending sort by the `Rank` column. -/
def sortByRank (l : List RankedRow) : List RankedRow :=
  l.foldl (fun acc r => insertByRank r acc) []

/-- Embeds `rank_accounts` (source lines 140-165): normalize, score, rank, then
`nsmallest(20, 'Rank')` — the first 20 rows by ascending rank (rows with a
NaN rank are not selected), with `top_n` hardcoded to 20. -/
def rank_accounts (ms : List MetricsRow) : List RankedRow :=
  let ranked := addRank (normalizeAndScore ms)
  (sortByRank (ranked.filter (fun r => r.rank.isSome))).take 20

deriving instance DecidableEq for Except

/-- A metrics row whose four weighted metrics all equal `v` (used for
concrete test inputs). -/
def constRow (name : String) (v : ℚ) : MetricsRow := ⟨name, v, v, v, v⟩

/-- Twentyone accounts: 19 with distinct metric values 20, 19, ..., 2 and two
accounts `S` and `T` tied at 0, i.e. tied at the selection boundary once the
frame holds more than 20 accounts. -/
def exC1 : List MetricsRow :=
  (List.range 19).map (fun i => constRow (toString i) (20 - (i : ℚ))) ++
    [constRow "S" 0, constRow "T" 0]

/-- Three accounts, two of them tied for the best score. -/
def exC2 : List MetricsRow := [constRow "X" 2, constRow "Y" 2, constRow "Z" 0]

/-- Two accounts with distinct metric values (all four columns have spread). -/
def exW1 : List MetricsRow := [constRow "A" 0, constRow "B" 1]

/-- The fields of a trade entry whose price is infinite. -/
def exC6fields : List (String × Json) :=
  [("price", Json.inf), ("quantity", Json.num 1), ("realizedProfit", Json.num 2)]

/-- One account whose single trade entry has an infinite price: every
flattened row is dropped by the cleaning steps. -/
def exC6 : List RawRow := [⟨"A", .strJson (.arr [.obj exC6fields])⟩]

/-- The decoded frame for `exC6`. -/
def exC6dec : List (String × Option Json) := [("A", some (.arr [.obj exC6fields]))]

/-- The normalized entries for `exC6`. -/
def exC6entries : List (String × List (String × Json)) := [("A", exC6fields)]

/-- Two accounts with one trade row each. -/
def exC7 : List TradeRow := [⟨"A", 1, 1, 1⟩, ⟨"B", 1, 1, 2⟩]

/-- A per-account computation that fails exactly on account `B` (a concrete
instance of "an error raised while computing one account's metrics"). -/
def fEx : String → List TradeRow → Except Unit AccountMetrics :=
  fun a rs => if a = "B" then .error () else .ok (accountMetricsBody a rs)

/-- A single-trade account with realized profit 5. -/
def exC3 : List TradeRow := [⟨"A", 1, 1, 5⟩]

/-- An account with two trades of equal realized profit (zero spread). -/
def exC3b : List TradeRow := [⟨"A", 1, 1, 3⟩, ⟨"A", 1, 1, 3⟩]

/-- A single-trade account with nontrivial price and quantity. -/
def exC4 : List TradeRow := [⟨"B", 2, 3, 7⟩]

/-- A single-trade account for the degenerate ROI/MDD case. -/
def exC9 : List TradeRow := [⟨"A", 2, 3, 4⟩]

/-- An account with two trades of profits 0 and 4: sample variance 8,
population variance 4. -/
def exC10 : List TradeRow := [⟨"A", 1, 1, 0⟩, ⟨"A", 1, 1, 4⟩]

/-- The normalized and scored row of account `A` of `exW1`. -/
def exW1rowA : RankedRow :=
  ⟨constRow "A" 0, some 0, some 0, some 0, some 0, some 0, none⟩

/-- The ranked row of account `X` of `exC2`: tied for the best score, its
rank is the fractional 3/2. -/
def exC2rowX : RankedRow :=
  ⟨constRow "X" 2, some 1, some 1, some 1, some 1, some 1, some (3 / 2)⟩

/-- The column minimum is a lower bound for every column value. -/
theorem colMin_le : ∀ (l : List ℚ) (x : ℚ), x ∈ l → colMin l ≤ x
  | [], x, hx => absurd hx (List.not_mem_nil x)
  | [a], x, hx => by
    rcases List.mem_singleton.mp hx with rfl
    simp [colMin]
  | a :: b :: t, x, hx => by
    rcases List.mem_cons.mp hx with rfl | hx2
    · exact min_le_left _ _
    · exact le_trans (min_le_right a (colMin (b :: t))) (colMin_le (b :: t) x hx2)

/-- The column maximum is an upper bound for every column value. -/
theorem le_colMax : ∀ (l : List ℚ) (x : ℚ), x ∈ l → x ≤ colMax l
  | [], x, hx => absurd hx (List.not_mem_nil x)
  | [a], x, hx => by
    rcases List.mem_singleton.mp hx with rfl
    simp [colMax]
  | a :: b :: t, x, hx => by
    rcases List.mem_cons.mp hx with rfl | hx2
    · exact le_max_left _ _
    · exact le_trans (le_colMax (b :: t) x hx2) (le_max_right a (colMax (b :: t)))

/-- Min-max normalization of a column value: NaN when the column has no
spread, otherwise the usual ratio, which lies in `[0, 1]`. -/
theorem normCol_mem (l : List ℚ) (v : ℚ) (hv : v ∈ l) :
    (colMax l = colMin l → normCol (colMin l) (colMax l) v = none) ∧
    (colMax l ≠ colMin l →
      normCol (colMin l) (colMax l) v = some ((v - colMin l) / (colMax l - colMin l)) ∧
      0 ≤ (v - colMin l) / (colMax l - colMin l) ∧
      (v - colMin l) / (colMax l - colMin l) ≤ 1) := by
  have h1 := colMin_le l v hv
  have h2 := le_colMax l v hv
  refine ⟨fun h => by simp [normCol, h], fun h => ?_⟩
  have hlt : colMin l < colMax l := lt_of_le_of_ne (le_trans h1 h2) (Ne.symm h)
  have hpos : 0 < colMax l - colMin l := by linarith
  refine ⟨by simp [normCol, h], div_nonneg (by linarith) hpos.le, ?_⟩
  rw [div_le_one hpos]
  linarith

/-- The Sharpe computation yields NaN exactly for a single-row profit
series. -/
theorem sharpeOf_eq_nan_iff : ∀ (l : List ℚ), sharpeOf l = .nan ↔ l.length = 1
  | [] => by simp [sharpeOf]
  | [x] => by simp [sharpeOf]
  | a :: b :: t => by
    constructor
    · intro h
      by_cases hv : sampleVar (a :: b :: t) = 0 <;> simp [sharpeOf, hv] at h
    · intro h
      simp only [List.length_cons] at h
      omega

/-- Sum of the `e` consecutive naturals starting at `c`, cast to `ℚ`. -/
theorem sum_range_posCast (c : ℕ) : ∀ (e : ℕ),
    ((List.range e).map (fun i => ((c + i : ℕ) : ℚ))).sum
      = (e : ℚ) * (c : ℚ) + (e : ℚ) * ((e : ℚ) - 1) / 2
  | 0 => by simp
  | e + 1 => by
    rw [List.range_succ, List.map_append, List.sum_append, sum_range_posCast c e]
    simp only [List.map_cons, List.map_nil, List.sum_cons, List.sum_nil]
    push_cast
    ring

/-- The average-of-positions rank in closed form: the count of strictly
better scores plus half the tie-group size plus one half. -/
theorem rankAvg_closed (scores : List (Option ℚ)) (s : ℚ) (h : countEq scores s ≠ 0) :
    rankAvg scores s = (countGt scores s : ℚ) + ((countEq scores s : ℚ) + 1) / 2 := by
  show ((List.range (countEq scores s)).map
      (fun i => ((countGt scores s + 1 + i : ℕ) : ℚ))).sum / ((countEq scores s : ℕ) : ℚ)
    = (countGt scores s : ℚ) + ((countEq scores s : ℚ) + 1) / 2
  rw [sum_range_posCast (countGt scores s + 1) (countEq scores s)]
  have he : ((countEq scores s : ℕ) : ℚ) ≠ 0 := Nat.cast_ne_zero.mpr h
  push_cast
  field_simp
  ring

/-- Inserting one row grows the list by one. -/
theorem length_insertByRank (r : RankedRow) :
    ∀ (l : List RankedRow), (insertByRank r l).length = l.length + 1
  | [] => rfl
  | x :: xs => by
    unfold insertByRank
    split
    · simp [length_insertByRank r xs]
    · simp

/-- Folding insertions preserves the total length. -/
theorem length_foldl_insert : ∀ (l acc : List RankedRow),
    (l.foldl (fun acc r => insertByRank r acc) acc).length = acc.length + l.length
  | [], acc => by simp
  | r :: t, acc => by
    simp only [List.foldl_cons, List.length_cons]
    rw [length_foldl_insert t (insertByRank r acc), length_insertByRank]
    omega

/-- Sorting by rank preserves the length. -/
theorem length_sortByRank (l : List RankedRow) : (sortByRank l).length = l.length := by
  unfold sortByRank
  rw [length_foldl_insert]
  simp

/-- An `Except Unit` value converts to `none` exactly when it is the error. -/
theorem exceptUnit_toOption_none (x : Except Unit AccountMetrics) :
    x.toOption = none ↔ x = .error () := by
  cases x with
  | error u => cases u; simp [Except.toOption]
  | ok v => simp [Except.toOption]

/-- Claim C5 (code bug): the decode operation is claimed to be a total
function over every raw field value, with no exception propagating.  The
code violates this: for the string `"{1, 2}"` — strict JSON parsing fails,
the literal fallback yields the set `{1, 2}` — `json.dumps` raises a
`TypeError` that the `except (ValueError, SyntaxError, JSONDecodeError)`
clause does not catch; and for an already-structured list value, the truth
test on `pd.isna`'s array result raises `ValueError`. -/
theorem C5_bug :
    validate_json_string (.strLit (.set [.int 1, .int 2])) = .error .typeError ∧
    validate_json_string (.structured (.list [])) = .error .valueError :=
  ⟨rfl, rfl⟩

/-- Claim C6 (amended): when the flattened result is empty after duplicate
removal, infinity replacement and null dropping, `load_and_clean_data`
returns the empty sequence rather than failing — the only emptiness check
(source line 47) happens before flattening, and cleaning is followed
directly by `return`. -/
theorem C6_returns_cleaned (rows : List RawRow) (dec : List (String × Option Json))
    (entries : List (String × List (String × Json)))
    (h1 : decodeRows rows = .ok dec)
    (h2 : goodRows dec ≠ [])
    (h3 : entriesOf (explodeAll (goodRows dec)) = some entries) :
    load_and_clean_data rows = .ok (cleanRows (normalizeEntries entries)) := by
  unfold load_and_clean_data
  rw [h1]
  have h2e : (goodRows dec).isEmpty = false := by
    cases hg : goodRows dec with
    | nil => exact absurd hg h2
    | cons a t => rfl
  simp only [h2e, Bool.false_eq_true, if_false, h3]

/-- Claim C6, witness: on the concrete infinite-price input the hypotheses
of `C6_returns_cleaned` hold. -/
theorem C6_witness :
    load_and_clean_data exC6 = .ok (cleanRows (normalizeEntries exC6entries)) :=
  C6_returns_cleaned exC6 exC6dec exC6entries rfl
    (by exact List.cons_ne_nil _ _) rfl

/-- Claim C6, counterexample: a dataset whose single trade entry has an
infinite price flattens to one row, which the cleaning steps drop; the
operation then returns the empty list instead of failing with an
empty-dataset error. -/
theorem C6_counterexample : load_and_clean_data exC6 = .ok [] := rfl

/-- The metrics loop produces exactly the successful accounts' records and
errors exactly when all accounts failed. -/
theorem metricsLoop_spec (f : String → List TradeRow → Except Unit AccountMetrics)
    (rows : List TradeRow) (h : rows ≠ []) :
    (calculate_metrics_with f rows = .error .valueError ↔
      ∀ a ∈ uniqueAccounts rows, f a (sliceOf rows a) = .error ()) ∧
    (∀ out, calculate_metrics_with f rows = .ok out →
      out = (uniqueAccounts rows).filterMap (fun a => (f a (sliceOf rows a)).toOption)) := by
  have hne : rows.isEmpty = false := List.isEmpty_eq_false.mpr h
  have hcalc : calculate_metrics_with f rows =
      (if ((uniqueAccounts rows).filterMap (fun a => (f a (sliceOf rows a)).toOption)).isEmpty
       then .error .valueError
       else .ok ((uniqueAccounts rows).filterMap (fun a => (f a (sliceOf rows a)).toOption))) := by
    unfold calculate_metrics_with
    rw [hne]
    simp
  by_cases hc : ((uniqueAccounts rows).filterMap (fun a => (f a (sliceOf rows a)).toOption)) = []
  · rw [hcalc, hc]
    simp only [List.isEmpty_nil, if_true]
    have hall := List.filterMap_eq_nil_iff.mp hc
    constructor
    · constructor
      · intro _ a ha
        exact (exceptUnit_toOption_none _).mp (hall a ha)
      · intro _
        trivial
    · intro out hout
      exact absurd hout (by simp)
  · have hc2 : ((uniqueAccounts rows).filterMap
        (fun a => (f a (sliceOf rows a)).toOption)).isEmpty = false :=
      List.isEmpty_eq_false.mpr hc
    rw [hcalc, hc2]
    simp only [Bool.false_eq_true, if_false]
    constructor
    · constructor
      · intro hE
        exact absurd hE (by simp)
      · intro hall
        exfalso
        apply hc
        rw [List.filterMap_eq_nil_iff]
        intro a ha
        exact (exceptUnit_toOption_none _).mpr (hall a ha)
    · intro out hout
      injection hout with h2
      exact h2.symm

/-- When applied to a list with two or more elements whose sample variance
is zero, the Sharpe computation's `std != 0` guard fires and the result is
the guarded 0. -/
theorem sharpeOf_of_sampleVar_zero :
    ∀ (l : List ℚ), 2 ≤ l.length → sampleVar l = 0 → sharpeOf l = .val 0
  | [], h, _ => by simp at h
  | [x], h, _ => by simp at h
  | a :: b :: t, _, hv => by simp [sharpeOf, hv]

/-- Claim C7 (confirmed): for every non-empty trade-row input and every
per-account computation `f` (any error the loop body might raise), the
metrics loop yields exactly the successful accounts' records, in
first-appearance order — a failing account is omitted without aborting the
rest — and the operation fails (with the all-failed error) if and only if
every account's computation failed. -/
theorem C7_error_isolation (f : String → List TradeRow → Except Unit AccountMetrics)
    (rows : List TradeRow) (h : rows ≠ []) :
    (calculate_metrics_with f rows = .error .valueError ↔
      ∀ a ∈ uniqueAccounts rows, f a (sliceOf rows a) = .error ()) ∧
    (∀ out, calculate_metrics_with f rows = .ok out →
      out = (uniqueAccounts rows).filterMap (fun a => (f a (sliceOf rows a)).toOption)) :=
  metricsLoop_spec f rows h

set_option maxRecDepth 4000 in
attribute [local semireducible] Rat.add Rat.sub Rat.mul Rat.inv Rat.ofScientific in
/-- Claim C7, witness: with a body that fails exactly on account `B` of a
two-account frame, the loop's output holds exactly account `A`'s record. -/
theorem C7_witness :
    [accountMetricsBody "A" (sliceOf exC7 "A")] =
      (uniqueAccounts exC7).filterMap (fun a => (fEx a (sliceOf exC7 a)).toOption) :=
  (C7_error_isolation fEx exC7 (by decide)).2 _ (by decide)

/-- Claim C3 (amended): for an account whose slice has exactly one row, the
Sharpe ratio is NaN (pandas' sample std of one value is NaN and the
`std != 0` guard passes NaN into the division), not the realized profit;
for an account with two or more rows whose profits have zero variance
(std exactly 0), the Sharpe ratio is the guarded 0. -/
theorem C3_sharpe_degenerate (a : String) (rs : List TradeRow) :
    (rs.length = 1 → (accountMetricsBody a rs).sharpe = .nan) ∧
    (2 ≤ rs.length → sampleVar (rs.map (fun r => r.realizedProfit)) = 0 →
      (accountMetricsBody a rs).sharpe = .val 0) := by
  constructor
  · intro h1
    show sharpeOf (rs.map (fun r => r.realizedProfit)) = .nan
    exact (sharpeOf_eq_nan_iff _).mpr (by rw [List.length_map]; exact h1)
  · intro h2 hv
    show sharpeOf (rs.map (fun r => r.realizedProfit)) = .val 0
    exact sharpeOf_of_sampleVar_zero _ (by rw [List.length_map]; exact h2) hv

set_option maxRecDepth 4000 in
attribute [local semireducible] Rat.add Rat.sub Rat.mul Rat.inv Rat.ofScientific in
/-- Claim C3, witness: an account with two equal profits gets Sharpe 0. -/
theorem C3_witness : (accountMetricsBody "A" exC3b).sharpe = SharpeVal.val 0 :=
  (C3_sharpe_degenerate "A" exC3b).2 (by decide) (by decide)

set_option maxRecDepth 4000 in
attribute [local semireducible] Rat.add Rat.sub Rat.mul Rat.inv Rat.ofScientific in
/-- Claim C3, counterexample: for the single-trade account with realized
profit 5, the claim demands `Sharpe_Ratio = 5` (mean over divisor 1); the
code computes NaN. -/
theorem C3_counterexample :
    calculate_metrics exC3 = .ok [⟨"A", 5, 0, 1, 1, 1, .nan, 0⟩] ∧
    SharpeVal.nan ≠ SharpeVal.val 5 :=
  ⟨by decide, by decide⟩

/-- Claim C4 (amended): in every metrics record the six fields
`PnL, ROI, Win_Rate, Win_Positions, Total_Positions, MDD` are (rational)
real numbers by construction, but `Sharpe_Ratio` is NaN exactly for the
accounts whose slice has a single trade row. -/
theorem C4_sharpe_nan_iff_single_row (rows : List TradeRow) (h : rows ≠ [])
    (out : List AccountMetrics) (hout : calculate_metrics rows = .ok out) :
    ∀ m ∈ out, (m.sharpe = .nan ↔ m.totalPositions = 1) := by
  have h2 := (metricsLoop_spec (fun a rs => .ok (accountMetricsBody a rs)) rows h).2 out hout
  have hmap : (uniqueAccounts rows).filterMap
        (fun a => (Except.ok (ε := Unit) (accountMetricsBody a (sliceOf rows a))).toOption)
      = (uniqueAccounts rows).map (fun a => accountMetricsBody a (sliceOf rows a)) := by
    simp only [Except.toOption]
    exact congrFun (List.filterMap_eq_map _) _
  rw [hmap] at h2
  intro m hm
  rw [h2] at hm
  obtain ⟨a, ha, rfl⟩ := List.mem_map.mp hm
  show sharpeOf ((sliceOf rows a).map (fun r => r.realizedProfit)) = .nan ↔
    (sliceOf rows a).length = 1
  rw [sharpeOf_eq_nan_iff, List.length_map]

set_option maxRecDepth 4000 in
attribute [local semireducible] Rat.add Rat.sub Rat.mul Rat.inv Rat.ofScientific in
/-- Claim C4, witness: for the single-row account `B`, the NaN Sharpe field
coincides with the slice having one row. -/
theorem C4_witness :
    ((⟨"B", 7, 0, 1, 1, 1, .nan, 0⟩ : AccountMetrics).sharpe = SharpeVal.nan ↔
      (⟨"B", 7, 0, 1, 1, 1, .nan, 0⟩ : AccountMetrics).totalPositions = 1) :=
  C4_sharpe_nan_iff_single_row exC4 (by decide) [⟨"B", 7, 0, 1, 1, 1, .nan, 0⟩]
    (by decide) _ (by decide)

set_option maxRecDepth 4000 in
attribute [local semireducible] Rat.add Rat.sub Rat.mul Rat.inv Rat.ofScientific in
/-- Claim C4, counterexample: a non-empty schema-valid input (one account,
one trade) whose metrics record carries `Sharpe_Ratio = NaN`, contradicting
"no field is NaN". -/
theorem C4_counterexample :
    calculate_metrics exC4 = .ok [⟨"B", 7, 0, 1, 1, 1, .nan, 0⟩] ∧
    (⟨"B", 7, 0, 1, 1, 1, .nan, 0⟩ : AccountMetrics).sharpe = SharpeVal.nan :=
  ⟨by decide, rfl⟩

/-- Claim C9 (confirmed): for every account slice, ROI is
`(final - initial) / initial` where `initial` is the first row's
`price * quantity` and `final` the last row's, with ROI 0 when `initial`
is 0; and a single-row slice yields `ROI = 0` and `MDD = 0`. -/
theorem C9_roi_mdd (a : String) (rs : List TradeRow) (h : rs ≠ []) :
    (accountMetricsBody a rs).roi =
      (if (rs.head h).price * (rs.head h).quantity ≠ 0
       then ((rs.getLast h).price * (rs.getLast h).quantity -
              (rs.head h).price * (rs.head h).quantity) /
            ((rs.head h).price * (rs.head h).quantity)
       else 0) ∧
    (rs.length = 1 →
      (accountMetricsBody a rs).roi = 0 ∧ (accountMetricsBody a rs).mdd = 0) := by
  cases rs with
  | nil => exact absurd rfl h
  | cons r t =>
    constructor
    · rfl
    · intro hlen
      cases t with
      | cons r2 t2 => simp at hlen
      | nil =>
        constructor
        · show roiOf [r] = 0
          have hr : roiOf [r] =
              if r.price * r.quantity ≠ 0 then
                (r.price * r.quantity - r.price * r.quantity) / (r.price * r.quantity)
              else 0 := rfl
          rw [hr]
          split <;> simp
        · show mddOf [r.realizedProfit] = 0
          simp [mddOf, cumsum, cumsumFrom, cummax, cummaxAux, listMaxD]

/-- Claim C9, witness: the single-trade account has ROI 0 and MDD 0. -/
theorem C9_witness :
    (accountMetricsBody "A" exC9).roi = 0 ∧ (accountMetricsBody "A" exC9).mdd = 0 :=
  (C9_roi_mdd "A" exC9 (by decide)).2 rfl

set_option maxRecDepth 4000 in
attribute [local semireducible] Rat.add Rat.sub Rat.mul Rat.inv Rat.ofScientific in
/-- Claim C10 (confirmed): for accounts with at least two rows and nonzero
profit variance, the Sharpe denominator is the sample standard deviation —
the variance under the square root divides by `n - 1`, pandas' default
`ddof=1` — and on the profit series `[0, 4]` the sample variance (8)
differs from the population variance (4), so the implementation commits to
the sample variant of the spec's open choice. -/
theorem C10_sample_std :
    (∀ (a : String) (rs : List TradeRow), 2 ≤ rs.length →
      sampleVar (rs.map (fun r => r.realizedProfit)) ≠ 0 →
      (accountMetricsBody a rs).sharpe =
        .ratio (mean (rs.map (fun r => r.realizedProfit)))
          (sumSqDev (rs.map (fun r => r.realizedProfit)) / ((rs.length : ℚ) - 1))) ∧
    sampleVar [0, 4] = 8 ∧ popVar [0, 4] = 4 ∧ (8 : ℚ) ≠ 4 := by
  refine ⟨?_, by decide, by decide, by norm_num⟩
  intro a rs h2 hv
  match rs, h2 with
  | r1 :: r2 :: t, _ =>
    show sharpeOf ((r1 :: r2 :: t).map (fun r => r.realizedProfit)) = _
    have hv2 : sampleVar (r1.realizedProfit :: r2.realizedProfit ::
        t.map (fun r => r.realizedProfit)) ≠ 0 := hv
    show sharpeOf (r1.realizedProfit :: r2.realizedProfit ::
        t.map (fun r => r.realizedProfit)) = _
    simp only [sharpeOf]
    rw [if_neg hv2]
    show SharpeVal.ratio _ (sampleVar ((r1 :: r2 :: t).map (fun r => r.realizedProfit))) = _
    unfold sampleVar
    rw [List.length_map]
    rfl

set_option maxRecDepth 4000 in
attribute [local semireducible] Rat.add Rat.sub Rat.mul Rat.inv Rat.ofScientific in
/-- Claim C10, witness: on the two-trade account with profits 0 and 4 the
Sharpe value is symbolically mean divided by the square root of the
sample variance. -/
theorem C10_witness :
    (accountMetricsBody "A" exC10).sharpe =
      SharpeVal.ratio (mean (exC10.map (fun r => r.realizedProfit)))
        (sumSqDev (exC10.map (fun r => r.realizedProfit)) / ((exC10.length : ℚ) - 1)) :=
  C10_sample_std.1 "A" exC10 (by decide) (by decide)

/-- Claim C8 (confirmed): each of the four metrics is normalized
independently as `(value - column min) / (column max - column min)`; when a
column has no spread every account's normalized value for it is NaN, and
when it has spread every account's normalized value is the stated ratio,
lying in `[0, 1]`. -/
theorem C8_minmax_normalization (ms : List MetricsRow) (r : RankedRow)
    (hr : r ∈ normalizeAndScore ms) :
    ((colMax (ms.map (fun m => m.roi)) = colMin (ms.map (fun m => m.roi)) →
        r.roiN = none) ∧
      (colMax (ms.map (fun m => m.roi)) ≠ colMin (ms.map (fun m => m.roi)) →
        r.roiN = some ((r.base.roi - colMin (ms.map (fun m => m.roi))) /
          (colMax (ms.map (fun m => m.roi)) - colMin (ms.map (fun m => m.roi)))) ∧
        0 ≤ (r.base.roi - colMin (ms.map (fun m => m.roi))) /
          (colMax (ms.map (fun m => m.roi)) - colMin (ms.map (fun m => m.roi))) ∧
        (r.base.roi - colMin (ms.map (fun m => m.roi))) /
          (colMax (ms.map (fun m => m.roi)) - colMin (ms.map (fun m => m.roi))) ≤ 1)) ∧
    ((colMax (ms.map (fun m => m.pnl)) = colMin (ms.map (fun m => m.pnl)) →
        r.pnlN = none) ∧
      (colMax (ms.map (fun m => m.pnl)) ≠ colMin (ms.map (fun m => m.pnl)) →
        r.pnlN = some ((r.base.pnl - colMin (ms.map (fun m => m.pnl))) /
          (colMax (ms.map (fun m => m.pnl)) - colMin (ms.map (fun m => m.pnl)))) ∧
        0 ≤ (r.base.pnl - colMin (ms.map (fun m => m.pnl))) /
          (colMax (ms.map (fun m => m.pnl)) - colMin (ms.map (fun m => m.pnl))) ∧
        (r.base.pnl - colMin (ms.map (fun m => m.pnl))) /
          (colMax (ms.map (fun m => m.pnl)) - colMin (ms.map (fun m => m.pnl))) ≤ 1)) ∧
    ((colMax (ms.map (fun m => m.sharpe)) = colMin (ms.map (fun m => m.sharpe)) →
        r.sharpeN = none) ∧
      (colMax (ms.map (fun m => m.sharpe)) ≠ colMin (ms.map (fun m => m.sharpe)) →
        r.sharpeN = some ((r.base.sharpe - colMin (ms.map (fun m => m.sharpe))) /
          (colMax (ms.map (fun m => m.sharpe)) - colMin (ms.map (fun m => m.sharpe)))) ∧
        0 ≤ (r.base.sharpe - colMin (ms.map (fun m => m.sharpe))) /
          (colMax (ms.map (fun m => m.sharpe)) - colMin (ms.map (fun m => m.sharpe))) ∧
        (r.base.sharpe - colMin (ms.map (fun m => m.sharpe))) /
          (colMax (ms.map (fun m => m.sharpe)) - colMin (ms.map (fun m => m.sharpe))) ≤ 1)) ∧
    ((colMax (ms.map (fun m => m.winRate)) = colMin (ms.map (fun m => m.winRate)) →
        r.winRateN = none) ∧
      (colMax (ms.map (fun m => m.winRate)) ≠ colMin (ms.map (fun m => m.winRate)) →
        r.winRateN = some ((r.base.winRate - colMin (ms.map (fun m => m.winRate))) /
          (colMax (ms.map (fun m => m.winRate)) - colMin (ms.map (fun m => m.winRate)))) ∧
        0 ≤ (r.base.winRate - colMin (ms.map (fun m => m.winRate))) /
          (colMax (ms.map (fun m => m.winRate)) - colMin (ms.map (fun m => m.winRate))) ∧
        (r.base.winRate - colMin (ms.map (fun m => m.winRate))) /
          (colMax (ms.map (fun m => m.winRate)) - colMin (ms.map (fun m => m.winRate))) ≤ 1)) := by
  simp only [normalizeAndScore] at hr
  obtain ⟨m, hm, rfl⟩ := List.mem_map.mp hr
  exact ⟨normCol_mem _ _ (List.mem_map_of_mem _ hm),
    normCol_mem _ _ (List.mem_map_of_mem _ hm),
    normCol_mem _ _ (List.mem_map_of_mem _ hm),
    normCol_mem _ _ (List.mem_map_of_mem _ hm)⟩

set_option maxRecDepth 4000 in
attribute [local semireducible] Rat.add Rat.sub Rat.mul Rat.inv Rat.ofScientific in
/-- Claim C8, witness: in the two-account frame with spread, account `A`'s
normalized ROI is the min-max ratio and lies in `[0, 1]`. -/
theorem C8_witness :
    exW1rowA.roiN = some ((exW1rowA.base.roi - colMin (exW1.map (fun m => m.roi))) /
        (colMax (exW1.map (fun m => m.roi)) - colMin (exW1.map (fun m => m.roi)))) ∧
    0 ≤ (exW1rowA.base.roi - colMin (exW1.map (fun m => m.roi))) /
        (colMax (exW1.map (fun m => m.roi)) - colMin (exW1.map (fun m => m.roi))) ∧
    (exW1rowA.base.roi - colMin (exW1.map (fun m => m.roi))) /
        (colMax (exW1.map (fun m => m.roi)) - colMin (exW1.map (fun m => m.roi))) ≤ 1 :=
  (C8_minmax_normalization exW1 exW1rowA (by decide)).1.2 (by decide)

/-- Claim C2 (amended): ranking is by `Score` descending under pandas'
default `average` method: an account's rank is (number of strictly greater
scores) + (tie-group size + 1)/2.  Tied accounts share this possibly
fractional rank — so two accounts tied for the best score are each ranked
1.5, not 1 — and the account after a k-way tie at the top is ranked
k + 1. -/
theorem C2_average_rank (ms : List MetricsRow) (r : RankedRow) (s : ℚ)
    (hr : r ∈ addRank (normalizeAndScore ms)) (hs : r.score = some s) :
    r.rank = some ((countGt ((normalizeAndScore ms).map (fun x => x.score)) s : ℚ) +
      ((countEq ((normalizeAndScore ms).map (fun x => x.score)) s : ℚ) + 1) / 2) := by
  simp only [addRank] at hr
  obtain ⟨r0, hr0, rfl⟩ := List.mem_map.mp hr
  have hs0 : r0.score = some s := hs
  show r0.score.map (fun t => rankAvg ((normalizeAndScore ms).map (fun x => x.score)) t) = _
  rw [hs0, Option.map_some']
  have hmem : some s ∈ (normalizeAndScore ms).map (fun x => x.score) := by
    rw [← hs0]
    exact List.mem_map_of_mem _ hr0
  have hpos : 0 < countEq ((normalizeAndScore ms).map (fun x => x.score)) s :=
    List.countP_pos_iff.mpr ⟨some s, hmem, by simp⟩
  exact congrArg some (rankAvg_closed _ s hpos.ne')

set_option maxRecDepth 4000 in
attribute [local semireducible] Rat.add Rat.sub Rat.mul Rat.inv Rat.ofScientific in
/-- Claim C2, witness: account `X`, tied with `Y` for the best score of
`exC2`, receives the average rank given by the closed form. -/
theorem C2_witness :
    exC2rowX.rank = some ((countGt ((normalizeAndScore exC2).map (fun x => x.score)) 1 : ℚ) +
      ((countEq ((normalizeAndScore exC2).map (fun x => x.score)) 1 : ℚ) + 1) / 2) :=
  C2_average_rank exC2 exC2rowX 1 (by decide) (by decide)

set_option maxRecDepth 4000 in
attribute [local semireducible] Rat.add Rat.sub Rat.mul Rat.inv Rat.ofScientific in
/-- Claim C2, counterexample: with two accounts tied at the best score and
one below, the code assigns ranks 1.5, 1.5, 3 — the tied best accounts are
not ranked 1 and the shared rank is not an integer, refuting standard
competition ranking. -/
theorem C2_counterexample :
    (addRank (normalizeAndScore exC2)).map (fun r => r.rank) =
      [some (3 / 2), some (3 / 2), some 3] ∧
    (3 / 2 : ℚ) ≠ 1 :=
  ⟨by decide, by norm_num⟩

/-- Claim C1 (amended): the selection step is `nsmallest(20, 'Rank')` with
`top_n` hardcoded to 20: the output never exceeds 20 rows, and whenever
every account has a non-NaN rank it has exactly `min 20 n` rows — at a tie
spanning the boundary only the earliest-occurring tied accounts are kept,
so selection is by row count, not by rank value. -/
theorem C1_top20 (ms : List MetricsRow) :
    (rank_accounts ms).length ≤ 20 ∧
    ((∀ r ∈ addRank (normalizeAndScore ms), r.rank.isSome) →
      (rank_accounts ms).length = min 20 ms.length) := by
  constructor
  · show ((sortByRank ((addRank (normalizeAndScore ms)).filter
        (fun r => r.rank.isSome))).take 20).length ≤ 20
    rw [List.length_take]
    exact min_le_left _ _
  · intro hall
    show ((sortByRank ((addRank (normalizeAndScore ms)).filter
        (fun r => r.rank.isSome))).take 20).length = min 20 ms.length
    rw [List.filter_eq_self.mpr hall, List.length_take, length_sortByRank]
    congr 1
    simp [addRank, normalizeAndScore]

set_option maxRecDepth 4000 in
attribute [local semireducible] Rat.add Rat.sub Rat.mul Rat.inv Rat.ofScientific in
/-- Claim C1, witness: the two-account frame with spread yields exactly
both rows. -/
theorem C1_witness : (rank_accounts exW1).length = min 20 exW1.length :=
  (C1_top20 exW1).2 (by decide)

set_option maxRecDepth 4000 in
attribute [local semireducible] Rat.add Rat.sub Rat.mul Rat.inv Rat.ofScientific in
/-- Claim C1, counterexample: in the 21-account frame `exC1` the accounts
`S` and `T` are tied at the boundary rank 41/2, yet the output has exactly
20 rows and `T` is missing — all boundary-tied accounts are not included,
refuting selection by rank value. -/
theorem C1_counterexample :
    (rank_accounts exC1).length = 20 ∧
    ((addRank (normalizeAndScore exC1)).filterMap
      (fun r => if r.base.portId = "S" ∨ r.base.portId = "T" then r.rank else none))
      = [41 / 2, 41 / 2] ∧
    ¬ ("T" ∈ (rank_accounts exC1).map (fun r => r.base.portId)) := by
  decide

end PortfolioTrade
